import Mathlib

/-!
Verification development for the MCP tool-integration layer of the repository:

* `DatabricksMCPClient` (src/unnamed/part_001): remote tool discovery with a
  5-minute cache, tool invocation, JSON-Schema-to-Zod translation, and
  qualified tool-name generation.
* `McpToolProvider` (src/unnamed/part_002): the tool catalog with its
  initialize/refresh lifecycle, fallback web_search/web_fetch tools, and the
  read interface getTools/getTool/hasTool/getToolNames.
* `mcp-connections.ts` (src/e2e-chatbot-app-next/server/src/config): the
  connection configuration consulted by the provider.

The embedding is shallow: JavaScript objects are modelled by the inductive
`JVal`, JavaScript `Map`s by insertion-ordered association lists, the network
by explicit outcome oracles, and `Date.now()` by an explicit `now : Nat`
(milliseconds).  Every modelled function is total; the places where the
source can throw are modelled with `Except` values.
-/

/-- JSON-like runtime values: response bodies, tool arguments, schema
descriptors.  `jnull` also stands in for the JavaScript `undefined` where a
test vector feeds `undefined` into a function (both are falsy and have no
properties, which is all the modelled code observes). -/
inductive JVal where
  | jnull
  | jbool (b : Bool)
  | jnum (n : Int)
  | jstr (s : String)
  | jarr (xs : List JVal)
  | jobj (fields : List (String × JVal))

/-- JavaScript truthiness on `JVal` (`!x` in the source is `jsFalsy x`). -/
def jsFalsy : JVal → Bool
  | .jnull => true
  | .jbool b => !b
  | .jnum n => n == 0
  | .jstr s => s.isEmpty
  | .jarr _ => false
  | .jobj _ => false

/-- Number of keys `Object.keys(x).length` sees: object fields, array
indices, string indices; primitives have none. -/
def jsKeyCount : JVal → Nat
  | .jobj fs => fs.length
  | .jarr xs => xs.length
  | .jstr s => s.length
  | _ => 0

/-- Property access `x.key`: `none` models `undefined` (absent property or
access on a primitive). -/
def getField : JVal → String → Option JVal
  | .jobj fs, k => fs.lookup k
  | _, _ => none

/-- `Object.entries(x)`: object fields in order; arrays and strings yield
index-keyed entries (for strings, one-character strings); primitives yield
nothing. -/
def jsEntries : JVal → List (String × JVal)
  | .jobj fs => fs
  | .jarr xs => xs.enum.map fun p => (toString p.1, p.2)
  | .jstr s => s.data.enum.map fun p => (toString p.1, .jstr (String.mk [p.2]))
  | _ => []

/-- Checks `x.key === s` for a string literal `s` (strict equality against a
string succeeds only on an identical string). -/
def fieldIsStr (j : JVal) (key : String) (s : String) : Bool :=
  match getField j key with
  | some (.jstr t) => t == s
  | _ => false

mutual
/-- Structural size of a `JVal`, used as the termination measure of the
schema translator. -/
def jsize : JVal → Nat
  | .jnull => 1
  | .jbool _ => 1
  | .jnum _ => 1
  | .jstr s => 1 + s.length
  | .jarr xs => 1 + jsizeArr xs
  | .jobj fs => 1 + jsizeFields fs
/-- Size of a list of array elements. -/
def jsizeArr : List JVal → Nat
  | [] => 0
  | x :: xs => 1 + jsize x + jsizeArr xs
/-- Size of a list of object fields. -/
def jsizeFields : List (String × JVal) → Nat
  | [] => 0
  | (_, v) :: fs => 1 + jsize v + jsizeFields fs
end

/-- Largest value size among a list of entries. -/
def jmaxEntries : List (String × JVal) → Nat
  | [] => 0
  | (_, v) :: rest => max (jsize v) (jmaxEntries rest)

theorem jsize_pos (j : JVal) : 0 < jsize j := by
  cases j <;> simp [jsize]

theorem jsize_lookup {fs : List (String × JVal)} {k : String} {v : JVal}
    (h : fs.lookup k = some v) : jsize v + 2 ≤ jsize (.jobj fs) := by
  induction fs with
  | nil => simp [List.lookup] at h
  | cons p rest ih =>
    obtain ⟨k', v'⟩ := p
    simp [List.lookup] at h
    split at h
    · cases h
      simp [jsize, jsizeFields]
      omega
    · have := ih h
      simp [jsize, jsizeFields] at *
      omega

theorem jsize_getField {j : JVal} {k : String} {v : JVal}
    (h : getField j k = some v) : jsize v + 2 ≤ jsize j := by
  cases j <;> simp [getField] at h
  exact jsize_lookup h

theorem jsize_le_jsizeFields {fs : List (String × JVal)} {k : String} {v : JVal}
    (h : (k, v) ∈ fs) : jsize v ≤ jsizeFields fs := by
  induction fs with
  | nil => simp at h
  | cons p rest ih =>
    obtain ⟨k', v'⟩ := p
    rcases List.mem_cons.1 h with h' | h'
    · cases h'
      simp [jsizeFields]
      omega
    · have := ih h'
      simp [jsizeFields]
      omega

theorem jsize_mem_arr {xs : List JVal} {x : JVal} (h : x ∈ xs) :
    jsize x ≤ jsizeArr xs := by
  induction xs with
  | nil => simp at h
  | cons y rest ih =>
    rcases List.mem_cons.1 h with h' | h'
    · cases h'; simp [jsizeArr]; omega
    · have := ih h'; simp [jsizeArr]; omega

theorem jmaxEntries_le_of {l : List (String × JVal)} {B : Nat}
    (h : ∀ kv ∈ l, jsize kv.2 ≤ B) : jmaxEntries l ≤ B := by
  induction l with
  | nil => simp [jmaxEntries]
  | cons p rest ih =>
    obtain ⟨k, v⟩ := p
    simp only [jmaxEntries]
    refine Nat.max_le.2
      ⟨h (k, v) (List.mem_cons_self _ _), ih fun kv hm => h kv (List.mem_cons_of_mem _ hm)⟩

theorem jmaxEntries_le (props : JVal) :
    jmaxEntries (jsEntries props) ≤ jsize props := by
  cases props with
  | jnull => simp [jsEntries, jmaxEntries, jsize]
  | jbool b => simp [jsEntries, jmaxEntries, jsize]
  | jnum n => simp [jsEntries, jmaxEntries, jsize]
  | jstr s =>
    refine jmaxEntries_le_of fun kv hkv => ?_
    simp only [jsEntries] at hkv
    rcases List.mem_map.1 hkv with ⟨⟨i, c⟩, hmem, rfl⟩
    have hne : s.data ≠ [] := by
      intro hd
      rw [hd] at hmem
      simp at hmem
    have hlen : 1 ≤ s.data.length := by
      cases hd : s.data with
      | nil => exact absurd hd hne
      | cons a t => simp
    have h1 : (String.mk [c]).length = 1 := rfl
    have h2 : s.length = s.data.length := rfl
    simp only [jsize]
    omega
  | jarr xs =>
    refine jmaxEntries_le_of fun kv hkv => ?_
    simp only [jsEntries] at hkv
    rcases List.mem_map.1 hkv with ⟨⟨i, x⟩, hmem, rfl⟩
    have hx : x ∈ xs := by
      have h2 : (i, x).2 ∈ xs.enum.map Prod.snd := List.mem_map_of_mem _ hmem
      rwa [List.enum_map_snd] at h2
    have := jsize_mem_arr hx
    simp [jsize]
    omega
  | jobj fs =>
    refine jmaxEntries_le_of fun kv hkv => ?_
    simp only [jsEntries] at hkv
    obtain ⟨k, v⟩ := kv
    have := jsize_le_jsizeFields hkv
    simp [jsize]
    omega

/-- Zod schemas, restricted to the shapes the source actually builds:
`z.object(\x7b\x7d).passthrough()`, `z.object(shape)` with per-field
optionality, the primitive validators, `z.array`, and `z.any()`.
`z.number().int()` is `intS`. -/
inductive ZSchema where
  | passthroughObj
  | objectS (fields : List (String × ZSchema × Bool))
  | stringS
  | numberS
  | intS
  | boolS
  | arrayS (elem : ZSchema)
  | anyS

/-- Evaluates `required.includes(key)` after `const required =
jsonSchema.required || []`.  A falsy `required` becomes the empty array.  A
string uses substring containment (String.prototype.includes); other
non-array truthy values would throw in JavaScript and never arise from the
registry payloads, so they are mapped to `false`. -/
def requiredIncludes (req : Option JVal) (key : String) : Bool :=
  match req with
  | none => false
  | some r =>
    if jsFalsy r then false
    else
      match r with
      | .jarr xs => xs.any fun v => match v with | .jstr s => s == key | _ => false
      | .jstr s => key.isEmpty || (s.splitOn key).length > 1
      | _ => false

mutual
/-- `DatabricksMCPClient.jsonSchemaToZod` (src/unnamed/part_001, lines
261-289): empty or falsy descriptors become a passthrough object schema; a
descriptor with `type === "object"` and truthy `properties` becomes an
object schema whose fields not listed in `required` are optional; anything
else becomes `z.any()`. -/
def jsonSchemaToZod (j : JVal) : ZSchema :=
  if jsFalsy j || jsKeyCount j == 0 then .passthroughObj
  else if fieldIsStr j "type" "object" then
    match hp : getField j "properties" with
    | some props =>
      if jsFalsy props then .anyS
      else .objectS (buildShape (jsEntries props) (getField j "required"))
    | none => .anyS
  else .anyS
termination_by (jsize j, 0, 0)
decreasing_by
simp only [Prod.lex_def]
refine Or.inl ?_
have h1 := jmaxEntries_le props
have h2 := jsize_getField hp
omega

/-- Builds the `shape` record of `jsonSchemaToZod`: each property is
translated by `convertJsonSchemaProperty`, and the trailing loop marking
properties outside `required` as optional is folded into the per-field
optional flag. -/
def buildShape (entries : List (String × JVal)) (req : Option JVal) :
    List (String × ZSchema × Bool) :=
  match entries with
  | [] => []
  | (k, v) :: rest =>
    (k, convertJsonSchemaProperty v, !requiredIncludes req k) :: buildShape rest req
termination_by (jmaxEntries entries + 1, 1, entries.length)
decreasing_by
· simp only [Prod.lex_def, jmaxEntries, List.length_cons]
  exact Or.inl (Nat.lt_succ_of_le le_sup_left)
· simp only [Prod.lex_def, jmaxEntries, List.length_cons]
  rcases Nat.eq_or_lt_of_le (le_sup_right (a := jsize v) (b := jmaxEntries fs)) with heq | hlt
  · exact Or.inr ⟨by omega, Or.inr ⟨trivial, Nat.lt_succ_self _⟩⟩
  · exact Or.inl (Nat.succ_lt_succ hlt)

/-- `DatabricksMCPClient.convertJsonSchemaProperty` (src/unnamed/part_001,
lines 294-315): dispatch on the declared `type`; `array` recurses into a
truthy `items`, `object` recurses into `jsonSchemaToZod` on the same
value, anything falsy or unrecognized is `z.any()`. -/
def convertJsonSchemaProperty (p : JVal) : ZSchema :=
  if jsFalsy p then .anyS
  else
    match getField p "type" with
    | some (.jstr "string") => .stringS
    | some (.jstr "number") => .numberS
    | some (.jstr "integer") => .intS
    | some (.jstr "boolean") => .boolS
    | some (.jstr "array") =>
      .arrayS
        (match hi : getField p "items" with
         | some items => if jsFalsy items then .anyS else convertJsonSchemaProperty items
         | none => .anyS)
    | some (.jstr "object") => jsonSchemaToZod p
    | _ => .anyS
termination_by (jsize p, 2, 0)
decreasing_by
· simp only [Prod.lex_def]
  have := jsize_getField hi
  omega
· simp only [Prod.lex_def]
  exact Or.inr ⟨trivial, Or.inl (by omega)⟩
end

mutual
/-- Size measure on translated schemas, for the recursion of `accepts`. -/
def zsize : ZSchema → Nat
  | .arrayS s => 1 + zsize s
  | .objectS fields => 1 + zfieldsSize fields
  | _ => 1
/-- Size of an object-schema field list. -/
def zfieldsSize : List (String × ZSchema × Bool) → Nat
  | [] => 0
  | (_, s, _) :: rest => 1 + zsize s + zfieldsSize rest
end

mutual
/-- Zod parse success: `accepts s v = true` iff `s.parse(v)` succeeds.
Plain `z.object` accepts and strips unknown keys; `passthrough` keeps them;
both require the value to be an object.  An optional field accepts an
absent key but still validates a present value. -/
def accepts (s : ZSchema) (v : JVal) : Bool :=
  match s, v with
  | .passthroughObj, .jobj _ => true
  | .passthroughObj, _ => false
  | .objectS fields, .jobj kvs => acceptsFields fields kvs
  | .objectS _, _ => false
  | .stringS, .jstr _ => true
  | .stringS, _ => false
  | .numberS, .jnum _ => true
  | .numberS, _ => false
  | .intS, .jnum _ => true
  | .intS, _ => false
  | .boolS, .jbool _ => true
  | .boolS, _ => false
  | .arrayS elemS, .jarr xs => acceptsElems elemS xs
  | .arrayS _, _ => false
  | .anyS, _ => true
termination_by (zsize s, 0, 0)
decreasing_by
· simp only [Prod.lex_def, zsize]
  omega
· simp only [Prod.lex_def, zsize]
  omega

/-- Field-wise validation of an object value against an object schema. -/
def acceptsFields (fields : List (String × ZSchema × Bool)) (kvs : List (String × JVal)) : Bool :=
  match fields with
  | [] => true
  | (k, sch, opt) :: rest =>
    (match kvs.lookup k with
     | some w => accepts sch w
     | none => opt) && acceptsFields rest kvs
termination_by (zfieldsSize fields, 0, 0)
decreasing_by
· simp only [Prod.lex_def, zfieldsSize]
  omega
· simp only [Prod.lex_def, zfieldsSize]
  omega

/-- Element-wise validation of an array value. -/
def acceptsElems (elemS : ZSchema) (xs : List JVal) : Bool :=
  match xs with
  | [] => true
  | x :: rest => accepts elemS x && acceptsElems elemS rest
termination_by (zsize elemS, 1, xs.length)
decreasing_by
· exact Prod.Lex.right _ (Prod.Lex.left _ _ (by omega))
· exact Prod.Lex.right _ (Prod.Lex.right _ (by rw [List.length_cons]; omega))
end

/-- Tool descriptor from an MCP server, per `mcpToolSchema`
(src/unnamed/part_001, lines 9-13): required `name`, optional `description`,
optional `inputSchema` record. -/
structure McpTool where
  name : String
  description : Option String
  inputSchema : Option JVal

/-- Characters the qualified-name regex `[^a-zA-Z0-9_]` keeps unchanged. -/
def isWordChar (c : Char) : Bool :=
  c.isAlphanum || c == '_'

/-- One step of `.replace(/[^a-zA-Z0-9_]/g, "_")`. -/
def sanitizeChar (c : Char) : Char :=
  if isWordChar c then c else '_'

/-- `"...".replace(/[^a-zA-Z0-9_]/g, "_")`: every character outside
`[A-Za-z0-9_]` becomes an underscore. -/
def sanitizeName (s : String) : String :=
  String.mk (s.data.map sanitizeChar)

/-- Qualified tool name built in `convertToAiSdkTool`
(src/unnamed/part_001, line 247): the template literal
`connectionName + "_" + toolName` sanitized by the regex replace. -/
def qualifiedName (connectionName toolName : String) : String :=
  sanitizeName (connectionName ++ "_" ++ toolName)

/-- Identifies which `execute` closure a catalog tool carries: a remote
call through `callTool`, or one of the two fallback wrappers. -/
inductive ExecSpec where
  | remote (connectionName : String) (toolName : String)
  | fallbackSearch
  | fallbackFetch

/-- Vercel AI SDK tool object as built by this code: `name`, `description`,
`inputSchema`, `outputSchema`, and the `execute` closure (represented by
`ExecSpec`). -/
structure AiTool where
  name : String
  description : String
  inputSchema : ZSchema
  outputSchema : ZSchema
  exec : ExecSpec

/-- `DatabricksMCPClient.convertToAiSdkTool` (src/unnamed/part_001, lines
242-255): sanitized qualified name, description defaulted through `||` (so
an empty string also falls back), input schema translated from
`mcpTool.inputSchema || \x7b\x7d`, output schema `z.any()`, and an execute
closure delegating to `callTool`. -/
def convertToAiSdkTool (t : McpTool) (connectionName : String) : AiTool :=
  { name := qualifiedName connectionName t.name
    description :=
      match t.description with
      | some d => if d.isEmpty then "MCP tool: " ++ t.name else d
      | none => "MCP tool: " ++ t.name
    inputSchema :=
      jsonSchemaToZod
        (match t.inputSchema with
         | some s => if jsFalsy s then .jobj [] else s
         | none => .jobj [])
    outputSchema := .anyS
    exec := .remote connectionName t.name }

/-- `CACHE_DURATION` (src/unnamed/part_001, line 61): five minutes in
milliseconds. -/
def CACHE_DURATION : Nat := 5 * 60 * 1000

/-- Insertion-ordered association-list update with JavaScript `Map.set`
semantics: an existing key keeps its position, a new key is appended. -/
def mapSet {α : Type} : List (String × α) → String → α → List (String × α)
  | [], k, v => [(k, v)]
  | (k', v') :: rest, k, v =>
    if k' == k then (k', v) :: rest else (k', v') :: mapSet rest k v

/-- Mutable state of `DatabricksMCPClient`: the `cachedTools` map and the
`toolCacheExpiry` map (src/unnamed/part_001, lines 59-60). -/
structure ClientState where
  cachedTools : List (String × List McpTool)
  toolCacheExpiry : List (String × Nat)

/-- Parsed JSON body of a discovery response, classified the way
`listTools` inspects it: an object with a truthy `tools` field holding
descriptors, a bare array of descriptors, or any other parsed JSON
(including objects whose `tools` field is absent or falsy). -/
inductive FetchBody where
  | withTools (tools : List McpTool)
  | bareList (tools : List McpTool)
  | other

/-- Environment outcome of one discovery request: the fetch (or header
construction) rejects, the response is non-ok, `response.json()` rejects,
or a JSON body is produced. -/
inductive FetchOutcome where
  | transportError
  | httpError (status : Nat)
  | parseError
  | ok (body : FetchBody)

/-- Tool extraction from a parsed body (src/unnamed/part_001, lines
157-162): `data.tools` if truthy, else the body itself if an array, else
the empty list. -/
def extractBodyTools : FetchBody → List McpTool
  | .withTools ts => ts
  | .bareList ts => ts
  | .other => []

/-- `DatabricksMCPClient.cacheTools` (src/unnamed/part_001, lines 176-180):
stores the tools and stamps the expiry `Date.now() + CACHE_DURATION`. -/
def cacheTools (st : ClientState) (conn : String) (tools : List McpTool) (now : Nat) :
    ClientState :=
  { cachedTools := mapSet st.cachedTools conn tools
    toolCacheExpiry := mapSet st.toolCacheExpiry conn (now + CACHE_DURATION) }

/-- Cache consultation at the top of `listTools` (src/unnamed/part_001,
lines 118-124): a hit needs both map entries, a truthy expiry (nonzero),
and `now < expiry`.  A cached empty array is truthy and is served. -/
def cacheLookup (st : ClientState) (conn : String) (now : Nat) : Option (List McpTool) :=
  match st.cachedTools.lookup conn, st.toolCacheExpiry.lookup conn with
  | some cached, some expiry =>
    if expiry != 0 && decide (now < expiry) then some cached else none
  | _, _ => none

/-- Result of one `listTools` call: the returned descriptors, the client
state afterwards, and how many network requests were issued (0 or 1). -/
structure ListToolsResult where
  tools : List McpTool
  state : ClientState
  fetches : Nat

/-- Fetch path of `listTools` (src/unnamed/part_001, lines 128-170): any
failure returns the empty list without touching the cache; a parsed body
has its tools extracted and cached. -/
def fetchTools (outcome : FetchOutcome) (now : Nat) (st : ClientState) (conn : String) :
    ListToolsResult :=
  match outcome with
  | .transportError => ⟨[], st, 1⟩
  | .httpError _ => ⟨[], st, 1⟩
  | .parseError => ⟨[], st, 1⟩
  | .ok body =>
    let tools := extractBodyTools body
    ⟨tools, cacheTools st conn tools now, 1⟩

/-- `DatabricksMCPClient.listTools` (src/unnamed/part_001, lines 116-171):
serve a valid cached entry without a network request, otherwise perform the
fetch path.  The function is total: every error branch of the source
returns `[]` instead of throwing. -/
def listTools (outcome : FetchOutcome) (now : Nat) (st : ClientState) (conn : String) :
    ListToolsResult :=
  match cacheLookup st conn now with
  | some cached => ⟨cached, st, 0⟩
  | none => fetchTools outcome now st conn

/-- `DatabricksMCPClient.clearCache` (src/unnamed/part_001, lines 343-347). -/
def clearCache (st : ClientState) : ClientState :=
  { cachedTools := [], toolCacheExpiry := [] }

/-- JavaScript exception value as observed by the catch blocks: whether it
is an `Error` instance, and its `message` when it is. -/
structure JsError where
  isError : Bool
  message : String

/-- Environment outcome of one `tools/call` request: an exception thrown
before or while reading the response (auth, fetch, `response.json()`), a
non-ok response with its `statusText`, or a parsed body. -/
inductive CallOutcome where
  | thrown (isError : Bool) (msg : String)
  | httpFail (statusText : String)
  | okBody (body : JVal)

/-- Result extraction of `callTool` (src/unnamed/part_001, lines 226-232):
`data.result` when present (defined), else a truthy `data.content`, else
the body itself. -/
def extractCallResult (body : JVal) : JVal :=
  match getField body "result" with
  | some r => r
  | none =>
    match getField body "content" with
    | some c => if jsFalsy c then body else c
    | none => body

/-- `DatabricksMCPClient.callTool` (src/unnamed/part_001, lines 185-237):
a non-ok response throws `Error("Tool call failed: " ++ statusText)`; any
other exception is logged and rethrown; success extracts the result.  The
connection name, tool name and arguments identify the request sent; the
outcome is the environment response to it. -/
def callTool (connectionName toolName : String) (args : JVal) (outcome : CallOutcome) :
    Except JsError JVal :=
  match outcome with
  | .thrown isErr msg => .error ⟨isErr, msg⟩
  | .httpFail statusText => .error ⟨true, "Tool call failed: " ++ statusText⟩
  | .okBody body => .ok (extractCallResult body)

/-- Message selection in the fallback catch blocks:
`error instanceof Error ? error.message : <fallbackMsg>`. -/
def caughtMessage (e : JsError) (fallbackMsg : String) : String :=
  if e.isError then e.message else fallbackMsg

/-- Execute closure of the fallback `web_search` tool
(src/unnamed/part_002, lines 144-156): delegate to
`callTool("you_mcp", "web_search", args)`; on an exception return the
structured value with empty results and the caught message. -/
def webSearchExecute (outcome : CallOutcome) (args : JVal) : JVal :=
  match callTool "you_mcp" "web_search" args outcome with
  | .ok v => v
  | .error e =>
    .jobj [("results", .jarr []), ("error", .jstr (caughtMessage e "Search failed"))]

/-- Execute closure of the fallback `web_fetch` tool
(src/unnamed/part_002, lines 181-195): delegate to
`callTool("you_mcp", "web_fetch", args)`; on an exception return empty
content, the input `args.url`, the current ISO timestamp, and the caught
message.  `nowIso` models `new Date().toISOString()`. -/
def webFetchExecute (outcome : CallOutcome) (nowIso : String) (args : JVal) : JVal :=
  match callTool "you_mcp" "web_fetch" args outcome with
  | .ok v => v
  | .error e =>
    .jobj [("content", .jstr ""),
           ("url", (getField args "url").getD .jnull),
           ("fetchedAt", .jstr nowIso),
           ("error", .jstr (caughtMessage e "Fetch failed"))]

/-- Fallback `web_search` tool object (src/unnamed/part_002, lines
126-161), with its hard-coded schemas. -/
def webSearchTool : AiTool :=
  { name := "web_search"
    description := "Search the web for current information, news, and recent events"
    inputSchema := .objectS [("query", .stringS, false), ("maxResults", .numberS, true)]
    outputSchema :=
      .objectS
        [("results",
          .arrayS
            (.objectS
              [("title", .stringS, false), ("url", .stringS, false),
               ("snippet", .stringS, false), ("publishedDate", .stringS, true)]),
          false)]
    exec := .fallbackSearch }

/-- Fallback `web_fetch` tool object (src/unnamed/part_002, lines 166-200).
The `.url()` refinement of the input `url` field is not preserved by the
schema model (it only tightens string acceptance). -/
def webFetchTool : AiTool :=
  { name := "web_fetch"
    description := "Fetch and analyze content from a web page"
    inputSchema :=
      .objectS [("url", .stringS, false), ("extractText", .boolS, true), ("summarize", .boolS, true)]
    outputSchema :=
      .objectS
        [("title", .stringS, true), ("content", .stringS, false),
         ("url", .stringS, false), ("fetchedAt", .stringS, false)]
    exec := .fallbackFetch }

/-- Runs an execute closure: remote tools propagate `callTool` failures as
exceptions, the two fallback wrappers always return a value. -/
def runExec (e : ExecSpec) (outcome : CallOutcome) (nowIso : String) (args : JVal) :
    Except JsError JVal :=
  match e with
  | .remote conn toolName => callTool conn toolName args outcome
  | .fallbackSearch => .ok (webSearchExecute outcome args)
  | .fallbackFetch => .ok (webFetchExecute outcome nowIso args)

/-- Connection record of `mcp-connections.ts`: name, description, enabled
flag and type (the opaque `config` mapping is not read by the modelled
core). -/
structure McpConnection where
  name : String
  description : String
  enabled : Bool
  type : String

/-- `DEFAULT_MCP_CONNECTIONS` (mcp-connections.ts, lines 31-42): the single
`you_mcp` external connection, enabled exactly when the environment
variable `MCP_ENABLED` is not the string `"false"`.  `envMcpEnabled` models
that environment predicate. -/
def defaultMcpConnections (envMcpEnabled : Bool) : List McpConnection :=
  [{ name := "you_mcp"
     description := "Unity Catalog MCP server for web search, content fetching, and real-time information"
     enabled := envMcpEnabled
     type := "external" }]

/-- `getEnabledMcpConnections` (mcp-connections.ts, lines 47-49). -/
def getEnabledMcpConnections (envMcpEnabled : Bool) : List McpConnection :=
  (defaultMcpConnections envMcpEnabled).filter fun c => c.enabled

/-- `isMcpEnabled` (mcp-connections.ts, lines 54-56). -/
def isMcpEnabled (envMcpEnabled : Bool) : Bool :=
  envMcpEnabled && (getEnabledMcpConnections envMcpEnabled).length > 0

/-- `McpConnectionConfig` (src/unnamed/part_001, lines 44-51): the record
passed to the client, with optional description and enabled flag. -/
structure McpConnectionConfig where
  connectionName : String
  description : Option String
  enabled : Option Bool

/-- Evaluates `connection.enabled !== false`: only an explicit `false`
disables a connection. -/
def cfgEnabled (c : McpConnectionConfig) : Bool :=
  c.enabled != some false

/-- Client state together with the index of the next network request in
the discovery oracle; `k` counts the discovery requests issued so far. -/
structure ClientRun where
  state : ClientState
  k : Nat

/-- One `listTools` call under a discovery oracle: the outcome of the
`k`-th network request is `oracle k`, and `k` advances by the number of
requests issued. -/
def listToolsRun (oracle : Nat → FetchOutcome) (now : Nat) (run : ClientRun) (conn : String) :
    List McpTool × ClientRun :=
  let r := listTools (oracle run.k) now run.state conn
  (r.tools, ⟨r.state, run.k + r.fetches⟩)

/-- `DatabricksMCPClient.initialize` (src/unnamed/part_001, lines 98-111):
pre-fetch tools for every configuration whose `enabled` is not `false`;
`listTools` never throws, so the surrounding try/catch is inert. -/
def clientInit (oracle : Nat → FetchOutcome) (now : Nat) (run : ClientRun)
    (configs : List McpConnectionConfig) : ClientRun :=
  configs.foldl
    (fun run c =>
      if cfgEnabled c then (listToolsRun oracle now run c.connectionName).2 else run)
    run

/-- `DatabricksMCPClient.getAllTools` (src/unnamed/part_001, lines
320-338): discover and convert the tools of every configuration whose
`enabled` is not `false`, accumulating in order. -/
def getAllTools (oracle : Nat → FetchOutcome) (now : Nat) (run : ClientRun)
    (configs : List McpConnectionConfig) : List AiTool × ClientRun :=
  configs.foldl
    (fun acc c =>
      if cfgEnabled c then
        let r := listToolsRun oracle now acc.2 c.connectionName
        (acc.1 ++ r.1.map (fun t => convertToAiSdkTool t c.connectionName), r.2)
      else acc)
    ([], run)

/-- `McpToolProvider.addDefaultTools` (src/unnamed/part_002, lines
118-121): install `web_search` then `web_fetch`. -/
def addDefaultTools (tools : List (String × AiTool)) : List (String × AiTool) :=
  mapSet (mapSet tools "web_search" webSearchTool) "web_fetch" webFetchTool

/-- `McpToolProvider.loadTools` (src/unnamed/part_002, lines 77-113):
clear the tool map, then for each connection load and insert its converted
tools; when a connection yields zero tools and is named `you_mcp`, install
the default tools.  The catch branch (also installing defaults for
`you_mcp`) is unreachable in the model because the modelled callees are
total. -/
def loadTools (oracle : Nat → FetchOutcome) (now : Nat) (run : ClientRun)
    (connections : List McpConnection) : List (String × AiTool) × ClientRun :=
  connections.foldl
    (fun acc conn =>
      let r := getAllTools oracle now acc.2
        [{ connectionName := conn.name, description := some conn.description,
           enabled := some conn.enabled }]
      let inserted := r.1.foldl (fun tl t => mapSet tl t.name t) acc.1
      let withDefaults :=
        if r.1.length == 0 && conn.name == "you_mcp" then addDefaultTools inserted
        else inserted
      (withDefaults, r.2))
    ([], run)

/-- Full provider state: the client it owns, the `tools` map and the
`initialized` flag (src/unnamed/part_002, lines 17-18). -/
structure ProviderRun where
  client : ClientRun
  tools : List (String × AiTool)
  initialized : Bool

/-- `McpToolProvider.initialize` (src/unnamed/part_002, lines 35-72): a
no-op when already initialized; when MCP is disabled only the flag is set;
otherwise the client is initialized with the enabled connections, the
tools are loaded, and the flag is set.  The catch branch also sets the
flag, so every path ends initialized. -/
def providerInit (envMcpEnabled : Bool) (oracle : Nat → FetchOutcome) (now : Nat)
    (pr : ProviderRun) : ProviderRun :=
  if pr.initialized then pr
  else if !isMcpEnabled envMcpEnabled then { pr with initialized := true }
  else
    let conns := getEnabledMcpConnections envMcpEnabled
    let run1 := clientInit oracle now pr.client
      (conns.map fun c =>
        { connectionName := c.name, description := some c.description,
          enabled := some c.enabled })
    let r := loadTools oracle now run1 conns
    { client := r.2, tools := r.1, initialized := true }

/-- `McpToolProvider.refresh` (src/unnamed/part_002, lines 244-249):
clear the client cache, reset `initialized`, and re-run initialization.
The held `tools` map is not touched here; only `loadTools` (reached when
MCP is enabled) clears it. -/
def providerRefresh (envMcpEnabled : Bool) (oracle : Nat → FetchOutcome) (now : Nat)
    (pr : ProviderRun) : ProviderRun :=
  providerInit envMcpEnabled oracle now
    { pr with client := ⟨clearCache pr.client.state, pr.client.k⟩, initialized := false }

/-- `McpToolProvider.getTools` (src/unnamed/part_002, lines 206-218):
empty record when not initialized, otherwise a copy of the tool map. -/
def getTools (pr : ProviderRun) : List (String × AiTool) :=
  if !pr.initialized then [] else pr.tools

/-- `McpToolProvider.getTool` (src/unnamed/part_002, lines 223-225). -/
def getTool (pr : ProviderRun) (name : String) : Option AiTool :=
  pr.tools.lookup name

/-- `McpToolProvider.hasTool` (src/unnamed/part_002, lines 230-232). -/
def hasTool (pr : ProviderRun) (name : String) : Bool :=
  (pr.tools.lookup name).isSome

/-- `McpToolProvider.getToolNames` (src/unnamed/part_002, lines 237-239). -/
def getToolNames (pr : ProviderRun) : List String :=
  pr.tools.map Prod.fst

/-- Discovery outcomes on which `listTools` returns without caching:
transport error, non-ok status, or a body that fails JSON parsing. -/
def failingOutcome : FetchOutcome → Bool
  | .transportError => true
  | .httpError _ => true
  | .parseError => true
  | .ok _ => false

/-- Discovery outcomes whose `listTools` result is the empty list: every
failure, and any parsed body whose extracted tool list is empty. -/
def outcomeEmpty : FetchOutcome → Bool
  | .ok b => (extractBodyTools b).isEmpty
  | _ => true

theorem lookup_mapSet_self {α : Type} (m : List (String × α)) (k : String) (v : α) :
    (mapSet m k v).lookup k = some v := by
  induction m with
  | nil => simp [mapSet, List.lookup]
  | cons p rest ih =>
    obtain ⟨k', v'⟩ := p
    by_cases h : k' = k
    · subst h
      simp [mapSet, List.lookup]
    · have hne : (k' == k) = false := by simp [h]
      have hne2 : (k == k') = false := by
        simp
        exact fun hk => h hk.symm
      simp [mapSet, hne, List.lookup, hne2, ih]

theorem lookup_isSome_of_mem_keys {α : Type} {tl : List (String × α)} {n : String}
    (h : n ∈ tl.map Prod.fst) : (tl.lookup n).isSome := by
  induction tl with
  | nil => simp at h
  | cons p rest ih =>
    obtain ⟨k, v⟩ := p
    rcases List.mem_cons.1 h with h' | h'
    · simp at h'
      subst h'
      simp [List.lookup]
    · by_cases hk : n = k
      · subst hk
        simp [List.lookup]
      · have : (n == k) = false := by simp [hk]
        simp only [List.lookup, this]
        exact ih h'

theorem listTools_hit {st : ClientState} {conn : String} {now : Nat}
    {ts : List McpTool} (o : FetchOutcome) (h : cacheLookup st conn now = some ts) :
    listTools o now st conn = ⟨ts, st, 0⟩ := by
  simp [listTools, h]

theorem listTools_miss {st : ClientState} {conn : String} {now : Nat}
    (o : FetchOutcome) (h : cacheLookup st conn now = none) :
    listTools o now st conn = fetchTools o now st conn := by
  simp [listTools, h]

theorem cacheLookup_cacheTools_self (st : ClientState) (conn : String)
    (tools : List McpTool) (now : Nat) :
    cacheLookup (cacheTools st conn tools now) conn now = some tools := by
  have h1 := lookup_mapSet_self st.cachedTools conn tools
  have h2 := lookup_mapSet_self st.toolCacheExpiry conn (now + CACHE_DURATION)
  simp only [cacheLookup, cacheTools]
  rw [h1, h2]
  have hc : ¬(now + CACHE_DURATION = 0) ∧ now < now + CACHE_DURATION := by
    simp [CACHE_DURATION]
  simp [hc, CACHE_DURATION]

/-- C5 counterexample: qualified-name generation is not injective.  The
distinct pairs `("a_b", "c")` and `("a", "b_c")` both produce the
qualified name `"a_b_c"`, refuting the claimed global uniqueness of
`<sourceId>_<toolName>` qualified names. -/
theorem c5_qualified_name_not_injective :
    qualifiedName "a_b" "c" = qualifiedName "a" "b_c" ∧
      ("a_b", "c") ≠ (("a", "b_c") : String × String) := by
  constructor
  · rfl
  · decide

/-- C5 amended: the qualified name is the sanitized concatenation
`<sourceId>_<toolName>` with every character outside `[A-Za-z0-9_]`
replaced by an underscore, it contains only such characters, and it is the
name `convertToAiSdkTool` installs; being a pure function of its inputs it
is deterministically reproducible, but distinct pairs may collide. -/
theorem c5_qualified_name_shape (s t : String) (mt : McpTool) :
    qualifiedName s t = sanitizeName (s ++ "_" ++ t) ∧
      ((qualifiedName s t).data.all isWordChar = true) ∧
      (convertToAiSdkTool mt s).name = qualifiedName s mt.name := by
  refine ⟨rfl, ?_, rfl⟩
  show ((s ++ "_" ++ t).data.map sanitizeChar).all isWordChar = true
  rw [List.all_map]
  refine List.all_eq_true.2 fun c hc => ?_
  show isWordChar (sanitizeChar c) = true
  unfold sanitizeChar
  by_cases h : isWordChar c
  · rw [if_pos h]
    exact h
  · rw [if_neg h]
    decide

/-- C9 counterexample: when the underlying call rejects with an `Error`
whose `message` is the empty string, the fallback `web_search` returns the
structured failure value with an empty `error` string, refuting the
claimed non-empty error message. -/
theorem c9_empty_error_message :
    getField (webSearchExecute (.thrown true "") (.jobj [])) "error" = some (.jstr "") ∧
      getField (webSearchExecute (.thrown true "") (.jobj [])) "results" = some (.jarr []) := by
  constructor <;> rfl

/-- C9 amended: a fallback invocation whose underlying call fails returns
a structured value instead of raising: `web_search` yields empty results
plus the caught message, `web_fetch` yields empty content, the input url,
the current timestamp and the caught message.  The message is the thrown
Error own message (possibly empty) or the fixed non-empty default when the
thrown value is not an Error; a non-ok response always yields the
non-empty `"Tool call failed: ..."` message. -/
theorem c9_fallback_failures_structured (isErr : Bool) (msg statusText nowIso : String)
    (args : JVal) (u : String) :
    (webSearchExecute (.thrown isErr msg) args =
        .jobj [("results", .jarr []),
               ("error", .jstr (if isErr then msg else "Search failed"))]) ∧
      (webSearchExecute (.httpFail statusText) args =
        .jobj [("results", .jarr []),
               ("error", .jstr ("Tool call failed: " ++ statusText))]) ∧
      ("Tool call failed: " ++ statusText ≠ "") ∧
      (getField args "url" = some (.jstr u) →
        webFetchExecute (.thrown isErr msg) nowIso args =
          .jobj [("content", .jstr ""), ("url", .jstr u), ("fetchedAt", .jstr nowIso),
                 ("error", .jstr (if isErr then msg else "Fetch failed"))]) ∧
      (runExec webSearchTool.exec (.thrown isErr msg) nowIso args =
        .ok (webSearchExecute (.thrown isErr msg) args)) ∧
      (runExec webFetchTool.exec (.thrown isErr msg) nowIso args =
        .ok (webFetchExecute (.thrown isErr msg) nowIso args)) := by
  refine ⟨?_, ?_, ?_, ?_, rfl, rfl⟩
  · simp [webSearchExecute, callTool, caughtMessage]
  · simp [webSearchExecute, callTool, caughtMessage]
  · intro h
    have hlen : ("Tool call failed: " ++ statusText).length = 0 := by
      rw [h]
      rfl
    rw [String.length_append] at hlen
    have h18 : ("Tool call failed: " : String).length = 18 := rfl
    omega
  · intro h
    simp [webFetchExecute, callTool, caughtMessage, h]

/-- C9 witness: the amended theorem applied at a concrete failing call. -/
theorem c9_fallback_failures_structured_witness :
    webFetchExecute (.thrown false "x") "2024-01-01T00:00:00.000Z"
        (.jobj [("url", .jstr "https://a.example")]) =
      .jobj [("content", .jstr ""), ("url", .jstr "https://a.example"),
             ("fetchedAt", .jstr "2024-01-01T00:00:00.000Z"),
             ("error", .jstr "Fetch failed")] := by
  have h := (c9_fallback_failures_structured false "x" "st" "2024-01-01T00:00:00.000Z"
    (.jobj [("url", .jstr "https://a.example")]) "https://a.example").2.2.2.1 rfl
  simpa using h

/-- C2: a cache-miss discovery issues exactly one network request; every
failing outcome (transport error, non-ok status, unparsable body) yields
the empty list, as does a parsed body of unrecognized shape.  `listTools`
is a total function, so it never raises by construction. -/
theorem c2_discovery_never_raises (o : FetchOutcome) (now : Nat) (st : ClientState)
    (conn : String) (h : cacheLookup st conn now = none) :
    (listTools o now st conn).fetches = 1 ∧
      (failingOutcome o = true → (listTools o now st conn).tools = []) ∧
      (listTools (.ok .other) now st conn).tools = [] := by
  rw [listTools_miss o h, listTools_miss (.ok .other) h]
  refine ⟨?_, ?_, rfl⟩
  · cases o <;> rfl
  · intro hf
    cases o <;> first | rfl | simp [failingOutcome] at hf

/-- C2 witness: the theorem applied at a concrete fresh state. -/
theorem c2_discovery_never_raises_witness :
    (listTools .transportError 0 ⟨[], []⟩ "you_mcp").fetches = 1 ∧
      (failingOutcome .transportError = true →
        (listTools .transportError 0 ⟨[], []⟩ "you_mcp").tools = []) ∧
      (listTools (.ok .other) 0 ⟨[], []⟩ "you_mcp").tools = [] :=
  c2_discovery_never_raises .transportError 0 ⟨[], []⟩ "you_mcp" rfl

/-- C3 counterexample: a 200 response whose parsed body has neither a
truthy `tools` field nor an array shape does populate the cache.  Starting
from an empty cache, such a discovery installs an empty entry with a fresh
expiry, and a discovery within the TTL is answered from that entry with no
network request, refuting the claimed atomicity on malformed bodies. -/
theorem c3_malformed_body_populates_cache :
    ((listTools (.ok .other) 0 ⟨[], []⟩ "you_mcp").state.cachedTools.lookup "you_mcp"
        = some []) ∧
      ((listTools (.ok .other) 0 ⟨[], []⟩ "you_mcp").state.toolCacheExpiry.lookup "you_mcp"
        = some 300000) ∧
      (listTools .transportError 1000 (listTools (.ok .other) 0 ⟨[], []⟩ "you_mcp").state
          "you_mcp"
        = ⟨[], (listTools (.ok .other) 0 ⟨[], []⟩ "you_mcp").state, 0⟩) := by
  refine ⟨rfl, rfl, rfl⟩

/-- C3 amended: transport errors, non-ok statuses and unparsable bodies
leave the client cache exactly as it was; a successfully parsed body
always populates the cache with the extracted tools, which is the empty
list for a body of unrecognized shape. -/
theorem c3_cache_discipline (o : FetchOutcome) (now : Nat) (st : ClientState)
    (conn : String) (b : FetchBody) :
    (failingOutcome o = true → (listTools o now st conn).state = st) ∧
      (cacheLookup st conn now = none →
        (listTools (.ok b) now st conn).state = cacheTools st conn (extractBodyTools b) now) := by
  constructor
  · intro hf
    cases hcl : cacheLookup st conn now with
    | some ts => rw [listTools_hit o hcl]
    | none =>
      rw [listTools_miss o hcl]
      cases o <;> first | rfl | simp [failingOutcome] at hf
  · intro h
    rw [listTools_miss _ h]
    rfl

/-- C3 amended witness: applied at a concrete failing discovery. -/
theorem c3_cache_discipline_witness :
    (failingOutcome .parseError = true →
      (listTools .parseError 5 ⟨[], []⟩ "you_mcp").state = (⟨[], []⟩ : ClientState)) ∧
      (cacheLookup ⟨[], []⟩ "you_mcp" 5 = none →
        (listTools (.ok .other) 5 ⟨[], []⟩ "you_mcp").state
          = cacheTools ⟨[], []⟩ "you_mcp" (extractBodyTools .other) 5) :=
  c3_cache_discipline .parseError 5 ⟨[], []⟩ "you_mcp" .other

/-- C7: a cached entry with an expiry strictly in the future is served
as-is with no network request and no state change; a successful discovery
stamps its entry with the completion time plus the fixed five-minute TTL
(`CACHE_DURATION = 300000` ms); an entry that is missing or whose expiry
has passed forces a live fetch. -/
theorem c7_cache_hit_semantics (st : ClientState) (conn : String) (now e : Nat)
    (ts : List McpTool) (o : FetchOutcome)
    (hts : st.cachedTools.lookup conn = some ts)
    (he : st.toolCacheExpiry.lookup conn = some e)
    (hnow : now < e) :
    listTools o now st conn = ⟨ts, st, 0⟩ ∧
      (∀ (st' : ClientState) (tools : List McpTool) (t : Nat),
        (cacheTools st' conn tools t).toolCacheExpiry.lookup conn = some (t + 5 * 60 * 1000)) ∧
      (∀ (st' : ClientState) (o' : FetchOutcome) (t : Nat),
        cacheLookup st' conn t = none → (listTools o' t st' conn).fetches = 1) ∧
      (∀ (st' : ClientState) (o' : FetchOutcome) (t e' : Nat),
        st'.toolCacheExpiry.lookup conn = some e' → e' ≤ t →
          (listTools o' t st' conn).fetches = 1) := by
  have hhit : cacheLookup st conn now = some ts := by
    simp [cacheLookup, hts, he]
    omega
  refine ⟨listTools_hit o hhit, ?_, ?_, ?_⟩
  · intro st' tools t
    exact lookup_mapSet_self st'.toolCacheExpiry conn (t + 5 * 60 * 1000)
  · intro st' o' t hmiss
    rw [listTools_miss o' hmiss]
    cases o' <;> rfl
  · intro st' o' t e' he' hle
    have hmiss : cacheLookup st' conn t = none := by
      simp [cacheLookup, he']
      cases hct : st'.cachedTools.lookup conn with
      | none => simp
      | some l =>
        simp
        omega
    rw [listTools_miss o' hmiss]
    cases o' <;> rfl

/-- C7 witness: the theorem applied at a concrete valid cache entry. -/
theorem c7_cache_hit_semantics_witness :
    listTools .transportError 10 ⟨[("you_mcp", [])], [("you_mcp", 11)]⟩ "you_mcp"
        = ⟨[], ⟨[("you_mcp", [])], [("you_mcp", 11)]⟩, 0⟩ :=
  (c7_cache_hit_semantics ⟨[("you_mcp", [])], [("you_mcp", 11)]⟩ "you_mcp" 10 11 []
    .transportError rfl rfl (by omega)).1

/-- Spec test vector: the object descriptor with a single required string
property `q`. -/
def specSchemaQ : JVal :=
  .jobj [("type", .jstr "object"),
         ("properties", .jobj [("q", .jobj [("type", .jstr "string")])]),
         ("required", .jarr [.jstr "q"])]

/-- Companion vector with an additional property `m` not listed in
`required`, exercising the optional-marking loop. -/
def specSchemaQM : JVal :=
  .jobj [("type", .jstr "object"),
         ("properties", .jobj [("q", .jobj [("type", .jstr "string")]),
                               ("m", .jobj [("type", .jstr "number")])]),
         ("required", .jarr [.jstr "q"])]

/-- C6: the translator satisfies both spec test vectors.  An empty
descriptor and `undefined` (modelled by `jnull`, equally falsy) both yield
the passthrough schema, which accepts an object with arbitrary
properties.  The `q` vector yields an object schema requiring `q` as a
string: a payload with a string `q` is accepted, a payload missing `q` or
carrying a non-string `q` is rejected.  A property not listed in
`required` is optional: the `q`/`m` vector accepts a payload without
`m`. -/
theorem c6_schema_translation_vectors :
    (jsonSchemaToZod (.jobj []) = .passthroughObj) ∧
      (jsonSchemaToZod .jnull = .passthroughObj) ∧
      (∀ fields : List (String × JVal), accepts .passthroughObj (.jobj fields) = true) ∧
      (jsonSchemaToZod specSchemaQ = .objectS [("q", .stringS, false)]) ∧
      (accepts (jsonSchemaToZod specSchemaQ) (.jobj [("q", .jstr "databricks")]) = true) ∧
      (accepts (jsonSchemaToZod specSchemaQ) (.jobj []) = false) ∧
      (accepts (jsonSchemaToZod specSchemaQ) (.jobj [("q", .jnum 3)]) = false) ∧
      (jsonSchemaToZod specSchemaQM
        = .objectS [("q", .stringS, false), ("m", .numberS, true)]) ∧
      (accepts (jsonSchemaToZod specSchemaQM) (.jobj [("q", .jstr "x")]) = true) := by
  have hq : jsonSchemaToZod specSchemaQ = .objectS [("q", .stringS, false)] := by
    simp [jsonSchemaToZod, specSchemaQ, jsFalsy, jsKeyCount, fieldIsStr, getField,
      List.lookup, jsEntries, buildShape, convertJsonSchemaProperty, requiredIncludes]
  have hqm : jsonSchemaToZod specSchemaQM
      = .objectS [("q", .stringS, false), ("m", .numberS, true)] := by
    simp [jsonSchemaToZod, specSchemaQM, jsFalsy, jsKeyCount, fieldIsStr, getField,
      List.lookup, jsEntries, buildShape, convertJsonSchemaProperty, requiredIncludes]
  refine ⟨?_, ?_, ?_, hq, ?_, ?_, ?_, hqm, ?_⟩
  · simp [jsonSchemaToZod, jsFalsy, jsKeyCount]
  · simp [jsonSchemaToZod, jsFalsy]
  · intro fields
    simp [accepts]
  · rw [hq]
    simp [accepts, acceptsFields, List.lookup]
  · rw [hq]
    simp [accepts, acceptsFields, List.lookup]
  · rw [hq]
    simp [accepts, acceptsFields, List.lookup]
  · rw [hqm]
    simp [accepts, acceptsFields, List.lookup]

/-- C8: `initialize` always ends with `initialized = true`, and a call on
an already-initialized provider is a strict no-op: the state is returned
unchanged, so in particular the fetch counter does not move and no
discovery network work happens. -/
theorem c8_initialize_idempotent (env : Bool) (oracle : Nat → FetchOutcome) (now : Nat)
    (pr : ProviderRun) :
    ((providerInit env oracle now pr).initialized = true) ∧
      (pr.initialized = true → providerInit env oracle now pr = pr) := by
  constructor
  · by_cases hi : pr.initialized
    · simp [providerInit, hi]
    · by_cases he : isMcpEnabled env
      · simp [providerInit, hi, he]
      · simp [providerInit, hi, he]
  · intro hi
    simp [providerInit, hi]

/-- C8 witness: a second call on the state produced by a first call is the
identity. -/
theorem c8_initialize_idempotent_witness :
    providerInit true (fun _ => .transportError) 0
        ⟨⟨⟨[], []⟩, 0⟩, [("web_search", webSearchTool)], true⟩
      = ⟨⟨⟨[], []⟩, 0⟩, [("web_search", webSearchTool)], true⟩ :=
  (c8_initialize_idempotent true (fun _ => .transportError) 0
    ⟨⟨⟨[], []⟩, 0⟩, [("web_search", webSearchTool)], true⟩).2 rfl

/-- C10: only `getTools` consults the `initialized` flag.  With the flag
down `getTools` is empty, while `getTool`, `hasTool` and `getToolNames`
read the underlying map regardless of the flag; hence a state with the
flag down and a non-empty map shows empty `getTools` next to non-empty
`getToolNames` with `hasTool` true for each held name. -/
theorem c10_only_getTools_checks_initialized (c c' : ClientRun)
    (tl : List (String × AiTool)) (b : Bool) (n : String) :
    getTools ⟨c, tl, false⟩ = [] ∧
      getTool ⟨c, tl, b⟩ n = getTool ⟨c', tl, true⟩ n ∧
      hasTool ⟨c, tl, b⟩ n = hasTool ⟨c', tl, true⟩ n ∧
      getToolNames ⟨c, tl, b⟩ = getToolNames ⟨c', tl, true⟩ ∧
      (n ∈ getToolNames ⟨c, tl, false⟩ → hasTool ⟨c, tl, false⟩ n = true) ∧
      (tl ≠ [] → getToolNames ⟨c, tl, false⟩ ≠ []) := by
  refine ⟨rfl, rfl, rfl, rfl, ?_, ?_⟩
  · intro hmem
    exact lookup_isSome_of_mem_keys hmem
  · intro hne
    simp [getToolNames, hne]

/-- C10 witness: a non-empty map with the flag down. -/
theorem c10_only_getTools_checks_initialized_witness :
    getTools ⟨⟨⟨[], []⟩, 0⟩, [("web_search", webSearchTool)], false⟩ = [] ∧
      hasTool ⟨⟨⟨[], []⟩, 0⟩, [("web_search", webSearchTool)], false⟩ "web_search" = true := by
  have h := c10_only_getTools_checks_initialized ⟨⟨[], []⟩, 0⟩ ⟨⟨[], []⟩, 0⟩
    [("web_search", webSearchTool)] false "web_search"
  exact ⟨h.1, h.2.2.2.2.1 (by simp [getToolNames])⟩

theorem cacheLookup_empty (conn : String) (t : Nat) :
    cacheLookup ⟨[], []⟩ conn t = none := rfl

theorem listToolsRun_k_ge (oracle : Nat → FetchOutcome) (now : Nat) (run : ClientRun)
    (conn : String) : run.k ≤ (listToolsRun oracle now run conn).2.k := by
  show run.k ≤ run.k + (listTools (oracle run.k) now run.state conn).fetches
  exact Nat.le_add_right _ _

theorem listToolsRun_cleared_k (oracle : Nat → FetchOutcome) (now k : Nat) (conn : String) :
    (listToolsRun oracle now ⟨⟨[], []⟩, k⟩ conn).2.k = k + 1 := by
  show k + (listTools (oracle k) now ⟨[], []⟩ conn).fetches = k + 1
  rw [listTools_miss _ (cacheLookup_empty conn now)]
  cases oracle k <;> rfl

theorem listTools_empty_pair (oracle : Nat → FetchOutcome) (now : Nat) (st : ClientState)
    (k : Nat)
    (hc : cacheLookup st "you_mcp" now = none ∨ cacheLookup st "you_mcp" now = some [])
    (h1 : outcomeEmpty (oracle k) = true)
    (h2 : outcomeEmpty (oracle (k + 1)) = true) :
    (listToolsRun oracle now ⟨st, k⟩ "you_mcp").1 = [] ∧
      (listToolsRun oracle now (listToolsRun oracle now ⟨st, k⟩ "you_mcp").2 "you_mcp").1 = [] := by
  rcases hc with hc | hc
  · cases ho : oracle k with
    | ok b =>
      have hb : extractBodyTools b = [] := by
        have := h1
        rw [ho] at this
        simpa [outcomeEmpty, List.isEmpty_iff] using this
      have hfirst : listToolsRun oracle now ⟨st, k⟩ "you_mcp"
          = ([], ⟨cacheTools st "you_mcp" [] now, k + 1⟩) := by
        simp only [listToolsRun, ho, listTools_miss _ hc, fetchTools, hb]
      rw [hfirst]
      refine ⟨rfl, ?_⟩
      have hhit := cacheLookup_cacheTools_self st "you_mcp" [] now
      simp only [listToolsRun, listTools_hit _ hhit]
    | transportError =>
      have hfirst : listToolsRun oracle now ⟨st, k⟩ "you_mcp" = ([], ⟨st, k + 1⟩) := by
        simp only [listToolsRun, ho, listTools_miss _ hc, fetchTools]
      rw [hfirst]
      refine ⟨rfl, ?_⟩
      rw [show (([], (⟨st, k + 1⟩ : ClientRun)) : List McpTool × ClientRun).2 = ⟨st, k + 1⟩ from rfl]
      cases ho2 : oracle (k + 1) with
      | ok b2 =>
        have hb2 : extractBodyTools b2 = [] := by
          have := h2
          rw [ho2] at this
          simpa [outcomeEmpty, List.isEmpty_iff] using this
        simp only [listToolsRun, ho2, listTools_miss _ hc, fetchTools, hb2]
      | transportError => simp only [listToolsRun, ho2, listTools_miss _ hc, fetchTools]
      | httpError status2 => simp only [listToolsRun, ho2, listTools_miss _ hc, fetchTools]
      | parseError => simp only [listToolsRun, ho2, listTools_miss _ hc, fetchTools]
    | httpError status =>
      have hfirst : listToolsRun oracle now ⟨st, k⟩ "you_mcp" = ([], ⟨st, k + 1⟩) := by
        simp only [listToolsRun, ho, listTools_miss _ hc, fetchTools]
      rw [hfirst]
      refine ⟨rfl, ?_⟩
      rw [show (([], (⟨st, k + 1⟩ : ClientRun)) : List McpTool × ClientRun).2 = ⟨st, k + 1⟩ from rfl]
      cases ho2 : oracle (k + 1) with
      | ok b2 =>
        have hb2 : extractBodyTools b2 = [] := by
          have := h2
          rw [ho2] at this
          simpa [outcomeEmpty, List.isEmpty_iff] using this
        simp only [listToolsRun, ho2, listTools_miss _ hc, fetchTools, hb2]
      | transportError => simp only [listToolsRun, ho2, listTools_miss _ hc, fetchTools]
      | httpError status2 => simp only [listToolsRun, ho2, listTools_miss _ hc, fetchTools]
      | parseError => simp only [listToolsRun, ho2, listTools_miss _ hc, fetchTools]
    | parseError =>
      have hfirst : listToolsRun oracle now ⟨st, k⟩ "you_mcp" = ([], ⟨st, k + 1⟩) := by
        simp only [listToolsRun, ho, listTools_miss _ hc, fetchTools]
      rw [hfirst]
      refine ⟨rfl, ?_⟩
      rw [show (([], (⟨st, k + 1⟩ : ClientRun)) : List McpTool × ClientRun).2 = ⟨st, k + 1⟩ from rfl]
      cases ho2 : oracle (k + 1) with
      | ok b2 =>
        have hb2 : extractBodyTools b2 = [] := by
          have := h2
          rw [ho2] at this
          simpa [outcomeEmpty, List.isEmpty_iff] using this
        simp only [listToolsRun, ho2, listTools_miss _ hc, fetchTools, hb2]
      | transportError => simp only [listToolsRun, ho2, listTools_miss _ hc, fetchTools]
      | httpError status2 => simp only [listToolsRun, ho2, listTools_miss _ hc, fetchTools]
      | parseError => simp only [listToolsRun, ho2, listTools_miss _ hc, fetchTools]
  · have hfirst : listToolsRun oracle now ⟨st, k⟩ "you_mcp" = ([], ⟨st, k + 0⟩) := by
      simp only [listToolsRun, listTools_hit _ hc]
    rw [hfirst]
    refine ⟨rfl, ?_⟩
    rw [show (([], (⟨st, k + 0⟩ : ClientRun)) : List McpTool × ClientRun).2 = ⟨st, k + 0⟩ from rfl]
    simp only [listToolsRun, listTools_hit _ hc]

/-- C1: when MCP is enabled (so the sole enabled primary source is
`you_mcp`) and every discovery during initialization yields the empty
sequence, whether from a failure or a genuinely empty registry (the
hypotheses allow any mix of failing outcomes and empty bodies, starting
from a cache with no entry or a cached empty entry), initialization ends
with the catalog holding exactly the two fallback tools: `getToolNames`
is precisely `["web_search", "web_fetch"]`. -/
theorem c1_empty_primary_installs_fallbacks (oracle : Nat → FetchOutcome) (now : Nat)
    (pr : ProviderRun)
    (hinit : pr.initialized = false)
    (hc : cacheLookup pr.client.state "you_mcp" now = none ∨
      cacheLookup pr.client.state "you_mcp" now = some [])
    (h1 : outcomeEmpty (oracle pr.client.k) = true)
    (h2 : outcomeEmpty (oracle (pr.client.k + 1)) = true) :
    getToolNames (providerInit true oracle now pr) = ["web_search", "web_fetch"] := by
  obtain ⟨⟨st, k⟩, tl, ini⟩ := pr
  simp only at hinit hc h1 h2
  subst hinit
  have hpair := listTools_empty_pair oracle now st k hc h1 h2
  simp [providerInit, isMcpEnabled, getEnabledMcpConnections, defaultMcpConnections,
    clientInit, loadTools, getAllTools, cfgEnabled, hpair.1, hpair.2, addDefaultTools,
    mapSet, getToolNames]

/-- C1 witness: initialization from a fresh provider while every discovery
request fails at transport level. -/
theorem c1_empty_primary_installs_fallbacks_witness :
    getToolNames (providerInit true (fun _ => .transportError) 0 ⟨⟨⟨[], []⟩, 0⟩, [], false⟩)
      = ["web_search", "web_fetch"] :=
  c1_empty_primary_installs_fallbacks (fun _ => .transportError) 0 ⟨⟨⟨[], []⟩, 0⟩, [], false⟩
    rfl (Or.inl rfl) rfl rfl

/-- C4 counterexample: `refresh` while MCP is disabled does not clear the
held catalog tools.  Starting from an initialized catalog holding
`web_search`, a refresh with MCP disabled leaves `getToolNames` equal to
`["web_search"]` (and `initialized = true`), refuting the claim that
refresh clears all held tools for every prior state including the
disabled case. -/
theorem c4_disabled_refresh_keeps_tools :
    getToolNames (providerRefresh false (fun _ => .transportError) 0
        ⟨⟨⟨[("you_mcp", [])], [("you_mcp", 400000)]⟩, 3⟩,
         [("web_search", webSearchTool)], true⟩) = ["web_search"] ∧
      (providerRefresh false (fun _ => .transportError) 0
        ⟨⟨⟨[("you_mcp", [])], [("you_mcp", 400000)]⟩, 3⟩,
         [("web_search", webSearchTool)], true⟩).initialized = true := by
  constructor <;> rfl

/-- C4 amended: `refresh` clears the client discovery cache, resets
`initialized` to `false`, and re-runs initialization with the currently
enabled sources.  After the clear, any discovery for any source issues a
network request regardless of the original TTL; when MCP is enabled the
re-initialization itself issues at least one fresh request.  When MCP is
disabled at refresh time, the held catalog tools are not cleared (the
early-return path only sets `initialized`), while the client cache is
still emptied. -/
theorem c4_refresh_semantics (env : Bool) (oracle : Nat → FetchOutcome) (now : Nat)
    (pr : ProviderRun) :
    (providerRefresh env oracle now pr
        = providerInit env oracle now ⟨⟨⟨[], []⟩, pr.client.k⟩, pr.tools, false⟩) ∧
      (env = false → (providerRefresh env oracle now pr).tools = pr.tools ∧
        (providerRefresh env oracle now pr).client.state.cachedTools = [] ∧
        (providerRefresh env oracle now pr).client.state.toolCacheExpiry = [] ∧
        (providerRefresh env oracle now pr).initialized = true) ∧
      (∀ (conn : String) (t : Nat) (o : FetchOutcome),
        (listTools o t (clearCache pr.client.state) conn).fetches = 1) ∧
      (env = true → pr.client.k + 1 ≤ (providerRefresh env oracle now pr).client.k) := by
  refine ⟨rfl, ?_, ?_, ?_⟩
  · intro h
    subst h
    refine ⟨?_, ?_, ?_, ?_⟩ <;>
      simp [providerRefresh, providerInit, isMcpEnabled, clearCache]
  · intro conn t o
    rw [show clearCache pr.client.state = (⟨[], []⟩ : ClientState) from rfl,
      listTools_miss o (cacheLookup_empty conn t)]
    cases o <;> rfl
  · intro h
    subst h
    have e1 : (providerRefresh true oracle now pr).client
        = (listToolsRun oracle now
            (listToolsRun oracle now ⟨⟨[], []⟩, pr.client.k⟩ "you_mcp").2 "you_mcp").2 := by
      simp [providerRefresh, providerInit, isMcpEnabled, getEnabledMcpConnections,
        defaultMcpConnections, clientInit, loadTools, getAllTools, cfgEnabled, clearCache]
    rw [e1]
    have h1k := listToolsRun_cleared_k oracle now pr.client.k "you_mcp"
    have h2k := listToolsRun_k_ge oracle now
      (listToolsRun oracle now ⟨⟨[], []⟩, pr.client.k⟩ "you_mcp").2 "you_mcp"
    omega

/-- C4 amended witness: the disabled-refresh clause and the
enabled-refresh network clause applied at concrete states. -/
theorem c4_refresh_semantics_witness :
    (providerRefresh false (fun _ => .transportError) 0
        ⟨⟨⟨[], []⟩, 0⟩, [("web_search", webSearchTool)], true⟩).tools
      = [("web_search", webSearchTool)] ∧
      0 + 1 ≤ (providerRefresh true (fun _ => .transportError) 0
        ⟨⟨⟨[], []⟩, 0⟩, [], true⟩).client.k := by
  constructor
  · exact ((c4_refresh_semantics false (fun _ => .transportError) 0
      ⟨⟨⟨[], []⟩, 0⟩, [("web_search", webSearchTool)], true⟩).2.1 rfl).1
  · exact (c4_refresh_semantics true (fun _ => .transportError) 0
      ⟨⟨⟨[], []⟩, 0⟩, [], true⟩).2.2.2 rfl
